import Mathlib

/-
Verification of the memoized derivation pipeline of transformer-asciidoc
(src/index.js, src/lib/utils.js).

The JavaScript code is shallowly embedded: the module-level mutable state
(the LRU memo cache, the in-flight render promises and instrumentation
counters for the external calls) becomes an explicit World record threaded
through every operation, async resolvers are split at their await points
into a synchronous prefix and a continuation, and the external
collaborators (asciidoctor, sanitize-html, lodash words, path.dirname) are
opaque function parameters, as the spec treats them.
-/

namespace TransformerAsciidoc

/-- internal metadata of a content-graph node; src/lib/utils.js reads
node.internal.origin and node.internal.timestamp. -/
structure NodeInternal where
  origin : String
  timestamp : Int
deriving Repr, DecidableEq

/-- file information of a node; only the path is read, to derive the
base directory for include resolution (src/index.js lines 209 and 225). -/
structure FileInfo where
  path : String
deriving Repr, DecidableEq

/-- a document node as consumed by the transformer: content, internal
origin and internal timestamp feed the cache key, source is the text
handed to the parser, and fileInfo.path provides the base directory. -/
structure Node where
  content : String
  internal : NodeInternal
  source : String
  fileInfo : FileInfo
deriving Repr, DecidableEq

/-- the record hashed by cacheKey in src/lib/utils.js: the node content,
the internal origin under the name path, the internal timestamp, and the
caller-supplied derivation key. -/
structure HashInput where
  content : String
  path : String
  timestamp : Int
  key : String
deriving Repr, DecidableEq

/-- Modelled from the spec: the hash-sum dependency called by
src/lib/utils.js is not part of this repository. Spec section 4.1 requires
a deterministic, side-effect free hash whose collisions never mix distinct
cache inputs, so the fingerprint is modelled as the hashed record itself
(collision-free and deterministic by construction). -/
def hashSum (x : HashInput) : HashInput := x

/-- a fingerprint is the (modelled) hash output. -/
abbrev Fingerprint := HashInput

/-- cacheKey from src/lib/utils.js lines 3 to 10: hashes the record of
content, internal origin (as path), internal timestamp and the derivation
key. Nothing else of the node or of the transformer options enters. -/
def cacheKey (node : Node) (key : String) : Fingerprint :=
  hashSum { content := node.content, path := node.internal.origin,
            timestamp := node.internal.timestamp, key := key }

/-- association-list lookup, the map access primitive of the memo-store
model. -/
def lookupC {κ α : Type} [DecidableEq κ] : List (κ × α) → κ → Option α
  | [], _ => none
  | p :: ps, k => if p.1 = k then some p.2 else lookupC ps k

/-- removes every binding of a key from an association list. -/
def removeKey {κ α : Type} [DecidableEq κ] : List (κ × α) → κ → List (κ × α)
  | [], _ => []
  | p :: ps, k => if p.1 = k then removeKey ps k else p :: removeKey ps k

/-- Modelled from the spec: the lru-cache dependency instantiated as
new LRU with max 1000 in src/index.js line 8 is not part of this
repository. Spec section 4.2 gives its contract: set places the entry in
most-recently-used position and evicts the least recently used entry
beyond capacity, and both get and set count as a use. The store is a list
of bindings ordered from most to least recently used. -/
def lruSet {κ α : Type} [DecidableEq κ] (max : Nat) (c : List (κ × α))
    (k : κ) (v : α) : List (κ × α) :=
  ((k, v) :: removeKey c k).take max

/-- the recency effect of get: a hit entry moves to most-recently-used
position (spec section 3: insertion and lookup both count as a use). -/
def lruTouch {κ α : Type} [DecidableEq κ] (c : List (κ × α)) (k : κ) :
    List (κ × α) :=
  match lookupC c k with
  | none => c
  | some v => (k, v) :: removeKey c k

/-- get on the memo store: the looked-up value together with the touched
store. -/
def cacheGet {κ α : Type} [DecidableEq κ] (c : List (κ × α)) (k : κ) :
    Option α × List (κ × α) :=
  (lookupC c k, lruTouch c k)

/-- capacity of the module-level memo store (src/index.js line 8). -/
def cacheMax : Nat := 1000

/-- a heading record as pushed by the headings resolver
(src/index.js lines 162 to 166). -/
structure Heading where
  depth : Nat
  value : String
  anchor : String
deriving Repr, DecidableEq

/-- a cross-reference entry of the structured document as seen through
Object.values of ast.getRefs: level, title and id. -/
structure Ref where
  level : Nat
  title : String
  id : String
deriving Repr, DecidableEq

/-- the values the four stages store in the module-level cache: the parse
stage stores the AST object, the render stage stores the promise of the
converted output (an id into the promise store), the headings stage stores
the list of heading records, and the timeToRead stage stores a number. -/
inductive CVal (AST : Type) where
  | promiseV (id : Nat)
  | astV (a : AST)
  | headingsV (hs : List Heading)
  | intV (n : Int)
deriving Repr, DecidableEq

/-- JavaScript truthiness of the cached values: objects, promises and
arrays (also empty arrays) are truthy; a number is truthy exactly when it
is nonzero. -/
def truthy {AST : Type} : CVal AST → Bool
  | .promiseV _ => true
  | .astV _ => true
  | .headingsV _ => true
  | .intV n => n != 0

/-- the miss test written if (!cached) in src/index.js: a miss when the
key is absent or the stored value is falsy. -/
def jsMiss {AST : Type} : Option (CVal AST) → Bool
  | none => true
  | some v => ! truthy v

/-- the state of a render promise: still suspended at the await before
ast.convert (holding the awaited AST), resolved with the converted string,
or rejected with an error. -/
inductive PromiseState (AST : Type) where
  | pendingConv (a : AST)
  | resolvedS (s : String)
  | rejectedS (e : String)
deriving Repr, DecidableEq

/-- the external collaborators of src/index.js, specified only at their
interfaces (spec section 1): asciidoctor.load applied to a source text,
the options object and a base directory; ast.convert likewise;
ast.getRefs as the list Object.values enumerates; sanitizeHTML
specialised to empty allowedTags and allowedAttributes; the lodash word
counter; and path.dirname. Options are opaque of type O, errors are
strings. -/
structure Externals (AST O : Type) where
  load : String → O → String → Except String AST
  convert : AST → O → String → Except String String
  getRefs : AST → List Ref
  sanitize : String → String
  wordCount : String → Nat
  dirname : String → String

/-- the mutable module-level state of src/index.js (the LRU cache),
together with the store of render promises and instrumentation counters
for the external calls and the view computations. -/
structure World (AST : Type) where
  cache : List (Fingerprint × CVal AST) := []
  promises : List (Nat × PromiseState AST) := []
  nextId : Nat := 0
  loadCalls : Nat := 0
  convertCalls : Nat := 0
  headingsComputes : Nat := 0
  timeToReadComputes : Nat := 0
deriving Repr

/-- the state at module load: empty cache, no promises, no external call
made yet. -/
def initialWorld {AST : Type} : World AST := {}

/-- the method _nodeToAST (src/index.js lines 204 to 215): computes the
ast fingerprint, consults the cache; on miss invokes asciidoctor.load on
node.source with the options spread together with base_dir derived from
node.fileInfo.path, and stores the AST; the result is returned already
settled (Promise.resolve of a value). A synchronous parser throw
propagates before cache.set is reached. The hit branch can only ever see
an AST value here because fingerprints embed the derivation key; the
error result in the remaining branch records that impossibility. -/
def nodeToAST {AST O : Type} (E : Externals AST O) (opts : O) (node : Node)
    (w : World AST) : Except String AST × World AST :=
  let key := cacheKey node "ast"
  let gc := cacheGet w.cache key
  let w1 := { w with cache := gc.2 }
  if jsMiss gc.1 then
    let w2 := { w1 with loadCalls := w1.loadCalls + 1 }
    match E.load node.source opts (E.dirname node.fileInfo.path) with
    | .error e => (.error e, w2)
    | .ok a => (.ok a, { w2 with cache := lruSet cacheMax w2.cache key (.astV a) })
  else
    match gc.1 with
    | some (.astV a) => (.ok a, w1)
    | _ => (.error "non-AST value under the ast fingerprint", w1)

/-- the method _nodeToHTML (src/index.js lines 217 to 232), synchronous
part: computes the html fingerprint, consults the cache. On miss the
async IIFE runs synchronously up to its await: _nodeToAST executes fully
(a parser throw rejects the IIFE promise immediately), then the IIFE
suspends, cache.set stores the still-unsettled promise, and the promise is
returned; the converter only runs later, in the continuation
runConvertCont. On hit the cached promise is returned unchanged. The hit
branch can only ever see a promise here because fingerprints embed the
derivation key; the dangling id in the remaining branch records that
impossibility. -/
def nodeToHTML {AST O : Type} (E : Externals AST O) (opts : O) (node : Node)
    (w : World AST) : Nat × World AST :=
  let key := cacheKey node "html"
  let gc := cacheGet w.cache key
  let w1 := { w with cache := gc.2 }
  if jsMiss gc.1 then
    let rw := nodeToAST E opts node w1
    let pid := rw.2.nextId
    let st : PromiseState AST :=
      match rw.1 with
      | .ok a => .pendingConv a
      | .error e => .rejectedS e
    let w3 := { rw.2 with nextId := pid + 1,
                          promises := (pid, st) :: rw.2.promises }
    (pid, { w3 with cache := lruSet cacheMax w3.cache key (.promiseV pid) })
  else
    match gc.1 with
    | some (.promiseV pid) => (pid, w1)
    | _ => (w.nextId, w1)

/-- the continuation of the async IIFE of _nodeToHTML: once the awaited
AST is available, ast.convert runs with the options spread together with
base_dir from node.fileInfo.path and the promise settles with the
converted string or with the error. A settled promise is left untouched:
each continuation runs exactly once. -/
def runConvertCont {AST O : Type} (E : Externals AST O) (opts : O)
    (node : Node) (pid : Nat) (w : World AST) : World AST :=
  match lookupC w.promises pid with
  | some (.pendingConv a) =>
      let w1 := { w with convertCalls := w.convertCalls + 1 }
      let st : PromiseState AST :=
        match E.convert a opts (E.dirname node.fileInfo.path) with
        | .ok s => .resolvedS s
        | .error e => .rejectedS e
      { w1 with promises := (pid, st) :: removeKey w1.promises pid }
  | _ => w

/-- the observation a caller makes when awaiting the render promise after
the microtask queue has drained. -/
def readPromise {AST : Type} (pid : Nat) (w : World AST) :
    Except String String :=
  match lookupC w.promises pid with
  | some (.resolvedS s) => .ok s
  | some (.rejectedS e) => .error e
  | _ => .error "promise not settled"

/-- one complete, uninterleaved call of _nodeToHTML: the synchronous part,
the convert continuation, then the awaited outcome. -/
def nodeToHTMLRun {AST O : Type} (E : Externals AST O) (opts : O)
    (node : Node) (w : World AST) : Except String String × World AST :=
  let pw := nodeToHTML E opts node w
  let w2 := runConvertCont E opts node pw.1 pw.2
  (readPromise pw.1 w2, w2)

/-- outcome of the synchronous prefix of the headings resolver: either the
resolver returned from the cache without suspending, or it is suspended at
its await holding the parse outcome. -/
inductive HeadingsCont (AST : Type) where
  | hDone (v : CVal AST)
  | hAfterAST (r : Except String AST)

/-- the headings resolver (src/index.js lines 155 to 171), synchronous
prefix: computes the headings fingerprint and consults the cache; on a hit
the cached value is returned as is; on a miss the resolver calls
_nodeToAST, which runs fully synchronously, and then suspends at the
await. The depth and stripTags arguments are received here exactly as in
the source, which never reads them. -/
def headingsSeg1 {AST O : Type} (E : Externals AST O) (opts : O)
    (node : Node) (depth : Option Nat) (stripTags : Bool) (w : World AST) :
    HeadingsCont AST × World AST :=
  let key := cacheKey node "headings"
  let gc := cacheGet w.cache key
  let w1 := { w with cache := gc.2 }
  if jsMiss gc.1 then
    let rw := nodeToAST E opts node w1
    (.hAfterAST rw.1, rw.2)
  else
    match gc.1 with
    | some v => (.hDone v, w1)
    | none => (.hDone (.headingsV []), w1)

/-- the headings resolver, continuation after the await: pushes the refs
of the AST in enumeration order as depth, value, anchor records, stores
the list, and returns it. A parse failure rethrows out of the await. -/
def headingsSeg2 {AST O : Type} (E : Externals AST O) (node : Node)
    (r : Except String AST) (w : World AST) :
    Except String (CVal AST) × World AST :=
  match r with
  | .error e => (.error e, w)
  | .ok a =>
      let hs := (E.getRefs a).map (fun h => Heading.mk h.level h.title h.id)
      let w1 := { w with headingsComputes := w.headingsComputes + 1 }
      (.ok (.headingsV hs),
        { w1 with cache := lruSet cacheMax w1.cache
                    (cacheKey node "headings") (.headingsV hs) })

/-- resumes a suspended headings resolver; the identity on one that
already returned from the cache. -/
def headingsResume {AST O : Type} (E : Externals AST O) (node : Node)
    (c : HeadingsCont AST) (w : World AST) :
    Except String (CVal AST) × World AST :=
  match c with
  | .hDone v => (.ok v, w)
  | .hAfterAST r => headingsSeg2 E node r w

/-- one complete, uninterleaved call of the headings resolver. -/
def headingsRun {AST O : Type} (E : Externals AST O) (opts : O)
    (node : Node) (depth : Option Nat) (stripTags : Bool) (w : World AST) :
    Except String (CVal AST) × World AST :=
  let cw := headingsSeg1 E opts node depth stripTags w
  headingsResume E node cw.1 cw.2

/-- the default of the speed argument (src/index.js line 179). -/
def timeToReadDefaultSpeed : Nat := 230

/-- Math.round of count divided by speed for a positive speed: the floor
of count over speed plus one half, written with natural division. Exact
rational arithmetic stands in for the JavaScript double division; a zero
speed (Infinity or NaN in JavaScript) is outside the model and excluded by
hypothesis in the theorems. -/
def roundDiv (count speed : Nat) : Nat := (2 * count + speed) / (2 * speed)

/-- outcome of the synchronous prefix of the timeToRead resolver. -/
inductive TtrCont (AST : Type) where
  | tDone (v : CVal AST)
  | tAwait (pid : Nat)

/-- the timeToRead resolver (src/index.js lines 182 to 199), synchronous
prefix: computes the timeToRead fingerprint, consults the cache; on a hit
the cached value is returned as is; on a miss the resolver calls
_nodeToHTML, whose synchronous part runs (the render promise is created
and cached), and suspends awaiting that promise. The speed argument is
received here and only read after the await. -/
def timeToReadSeg1 {AST O : Type} (E : Externals AST O) (opts : O)
    (node : Node) (speed : Nat) (w : World AST) : TtrCont AST × World AST :=
  let key := cacheKey node "timeToRead"
  let gc := cacheGet w.cache key
  let w1 := { w with cache := gc.2 }
  if jsMiss gc.1 then
    let pw := nodeToHTML E opts node w1
    (.tAwait pw.1, pw.2)
  else
    match gc.1 with
    | some v => (.tDone v, w1)
    | none => (.tDone (.intV 0), w1)

/-- the timeToRead resolver, continuation after the await: sanitizeHTML
strips every tag and attribute from the rendered html, the lodash word
count is divided by speed and rounded, a zero result becomes 1 through the
or-expression, and the value is stored and returned. A rejected render
rethrows out of the await. -/
def timeToReadSeg2 {AST O : Type} (E : Externals AST O) (node : Node)
    (speed : Nat) (pid : Nat) (w : World AST) :
    Except String (CVal AST) × World AST :=
  match readPromise pid w with
  | .error e => (.error e, w)
  | .ok html =>
      let text := E.sanitize html
      let count := E.wordCount text
      let r := roundDiv count speed
      let v : Int := if r = 0 then 1 else (r : Int)
      let w1 := { w with timeToReadComputes := w.timeToReadComputes + 1 }
      (.ok (.intV v),
        { w1 with cache := lruSet cacheMax w1.cache
                    (cacheKey node "timeToRead") (.intV v) })

/-- resumes a suspended timeToRead resolver: first the pending convert
continuation of the awaited promise runs (a no-op when already settled),
then the resolver remainder; the identity on a resolver that already
returned from the cache. -/
def timeToReadResume {AST O : Type} (E : Externals AST O) (opts : O)
    (node : Node) (speed : Nat) (c : TtrCont AST) (w : World AST) :
    Except String (CVal AST) × World AST :=
  match c with
  | .tDone v => (.ok v, w)
  | .tAwait pid => timeToReadSeg2 E node speed pid (runConvertCont E opts node pid w)

/-- one complete, uninterleaved call of the timeToRead resolver. -/
def timeToReadRun {AST O : Type} (E : Externals AST O) (opts : O)
    (node : Node) (speed : Nat) (w : World AST) :
    Except String (CVal AST) × World AST :=
  let cw := timeToReadSeg1 E opts node speed w
  timeToReadResume E opts node speed cw.1 cw.2

/-- two requests for the rendered output issued in the same tick: both
synchronous parts run first (JavaScript is single threaded and the
synchronous part never suspends), then the queued convert continuation
runs; running it again through the second promise reference is a no-op on
the already settled promise. -/
def twoConcurrentHTML {AST O : Type} (E : Externals AST O) (opts : O)
    (node : Node) (w : World AST) : (Nat × Nat) × World AST :=
  let p1 := nodeToHTML E opts node w
  let p2 := nodeToHTML E opts node p1.2
  let w3 := runConvertCont E opts node p1.1 p2.2
  let w4 := runConvertCont E opts node p2.1 w3
  ((p1.1, p2.1), w4)

/-- two headings requests issued in the same tick: both synchronous
prefixes run before either continuation, because each resolver suspends at
its await before it reaches cache.set; the continuations then resume in
queue order. -/
def twoConcurrentHeadings {AST O : Type} (E : Externals AST O) (opts : O)
    (node : Node) (d1 : Option Nat) (s1 : Bool) (d2 : Option Nat)
    (s2 : Bool) (w : World AST) :
    (Except String (CVal AST) × Except String (CVal AST)) × World AST :=
  let c1 := headingsSeg1 E opts node d1 s1 w
  let c2 := headingsSeg1 E opts node d2 s2 c1.2
  let r1 := headingsResume E node c1.1 c2.2
  let r2 := headingsResume E node c2.1 r1.2
  ((r1.1, r2.1), r2.2)

/-- two timeToRead requests issued in the same tick: both synchronous
prefixes run (the second finds the render promise already cached), then
the convert continuation settles the shared promise, then both resolver
remainders run in queue order. -/
def twoConcurrentTimeToRead {AST O : Type} (E : Externals AST O) (opts : O)
    (node : Node) (sp1 sp2 : Nat) (w : World AST) :
    (Except String (CVal AST) × Except String (CVal AST)) × World AST :=
  let c1 := timeToReadSeg1 E opts node sp1 w
  let c2 := timeToReadSeg1 E opts node sp2 c1.2
  let r1 := timeToReadResume E opts node sp1 c1.1 c2.2
  let r2 := timeToReadResume E opts node sp2 c2.1 r1.2
  ((r1.1, r2.1), r2.2)

/-- folding a list of keys into an empty store, each key inserted with its
value; used to state the eviction properties of the memo store. -/
def insertAll {κ α : Type} [DecidableEq κ] (cap : Nat) (f : κ → α)
    (ks : List κ) : List (κ × α) :=
  ks.foldl (fun c k => lruSet cap c k (f k)) []

/-- every value held in the cache is truthy. -/
def cacheTruthy {AST : Type} (w : World AST) : Prop :=
  ∀ p ∈ w.cache, truthy p.2 = true

/-- a concrete document node for evaluating the pipeline. -/
def node0 : Node :=
  { content := "= Title\n\nHello world."
  , internal := { origin := "/docs/a.adoc", timestamp := 1 }
  , source := "= Title\n\nHello world."
  , fileInfo := { path := "/docs/a.adoc" } }

/-- a node that agrees with node0 on content, origin and timestamp but
carries a different source text. -/
def node1 : Node :=
  { content := "= Title\n\nHello world."
  , internal := { origin := "/docs/a.adoc", timestamp := 1 }
  , source := "= Other\n\nEntirely different text."
  , fileInfo := { path := "/docs/a.adoc" } }

/-- the refs of the concrete AST: two entries at levels 1 and 2, the first
title keeping its inline markup. -/
def refs0 : List Ref :=
  [{ level := 1, title := "<em>A</em>", id := "_a" },
   { level := 2, title := "B", id := "_b" }]

/-- concrete external collaborators whose parser and converter succeed. -/
def extOk : Externals Nat Unit :=
  { load := fun _ _ _ => .ok 0
  , convert := fun _ _ _ => .ok "<p>hello world</p>"
  , getRefs := fun _ => refs0
  , sanitize := fun _ => "hello world"
  , wordCount := fun _ => 2
  , dirname := fun _ => "/docs" }

/-- concrete external collaborators whose converter rejects. -/
def extConvertFail : Externals Nat Unit :=
  { extOk with convert := fun _ _ _ => .error "convert failed" }

/-- concrete external collaborators whose parser throws. -/
def extLoadFail : Externals Nat Unit :=
  { extOk with load := fun _ _ _ => .error "parse failed" }

/-- concrete external collaborators for a document without any heading. -/
def extNoRefs : Externals Nat Unit :=
  { extOk with getRefs := fun _ => [] }

/-- removing a key never lengthens an association list. -/
theorem removeKey_length_le {κ α : Type} [DecidableEq κ]
    (c : List (κ × α)) (k : κ) : (removeKey c k).length ≤ c.length := by
  induction c with
  | nil => simp [removeKey]
  | cons p ps ih =>
      simp only [removeKey, List.length_cons]
      split
      · exact Nat.le_succ_of_le ih
      · simpa using Nat.succ_le_succ ih

/-- a store below capacity takes a set without evicting. -/
theorem lruSet_of_lt {κ α : Type} [DecidableEq κ] {max : Nat}
    (c : List (κ × α)) (k : κ) (v : α) (h : c.length < max) :
    lruSet max c k v = (k, v) :: removeKey c k := by
  unfold lruSet
  apply List.take_of_length_le
  simpa using Nat.succ_le_of_lt (Nat.lt_of_le_of_lt (removeKey_length_le c k) h)

/-- removing an absent key is the identity. -/
theorem removeKey_of_not_mem {κ α : Type} [DecidableEq κ]
    {c : List (κ × α)} {k : κ} (h : ∀ p ∈ c, p.1 ≠ k) :
    removeKey c k = c := by
  induction c with
  | nil => rfl
  | cons p ps ih =>
      simp only [removeKey]
      rw [if_neg (h p (by simp)), ih (fun q hq => h q (by simp [hq]))]

/-- elements surviving a key removal were in the original list. -/
theorem mem_of_mem_removeKey {κ α : Type} [DecidableEq κ]
    {c : List (κ × α)} {k : κ} {p : κ × α} (h : p ∈ removeKey c k) :
    p ∈ c := by
  induction c with
  | nil => simp [removeKey] at h
  | cons q qs ih =>
      simp only [removeKey] at h
      split at h
      · exact List.mem_cons_of_mem _ (ih h)
      · rcases List.mem_cons.mp h with h | h
        · exact h ▸ List.mem_cons_self _ _
        · exact List.mem_cons_of_mem _ (ih h)

/-- a successful lookup exhibits a binding of the list. -/
theorem lookupC_mem {κ α : Type} [DecidableEq κ]
    {c : List (κ × α)} {k : κ} {v : α} (h : lookupC c k = some v) :
    (k, v) ∈ c := by
  induction c with
  | nil => simp [lookupC] at h
  | cons p ps ih =>
      simp only [lookupC] at h
      split at h
      · rename_i hk
        cases h
        have : p = (k, p.2) := by
          cases p
          simpa using hk
        rw [← this]
        exact List.mem_cons_self _ _
      · exact List.mem_cons_of_mem _ (ih h)

/-- touching a key only rearranges bindings of the list. -/
theorem mem_of_mem_lruTouch {κ α : Type} [DecidableEq κ]
    {c : List (κ × α)} {k : κ} {p : κ × α} (h : p ∈ lruTouch c k) :
    p ∈ c := by
  unfold lruTouch at h
  split at h
  · exact h
  · rename_i v hv
    rcases List.mem_cons.mp h with h | h
    · exact h ▸ lookupC_mem hv
    · exact mem_of_mem_removeKey h

/-- a binding of a freshly set store is the new binding or an old one. -/
theorem mem_of_mem_lruSet {κ α : Type} [DecidableEq κ]
    {max : Nat} {c : List (κ × α)} {k : κ} {v : α} {p : κ × α}
    (h : p ∈ lruSet max c k v) : p = (k, v) ∨ p ∈ c := by
  unfold lruSet at h
  have h2 := List.take_subset _ _ h
  rcases List.mem_cons.mp h2 with h2 | h2
  · exact Or.inl h2
  · exact Or.inr (mem_of_mem_removeKey h2)

/-- prepending to a truncated list and truncating again equals truncating
the plain prepended list. -/
theorem take_cons_take {α : Type} (n : Nat) (x : α) (l : List α) :
    (x :: l.take n).take n = (x :: l).take n := by
  cases n with
  | zero => rfl
  | succ m =>
      rw [List.take_succ_cons, List.take_succ_cons, List.take_take,
        Nat.min_eq_left (Nat.le_succ m)]

/-- lookup over keys mapped to their values: an absent key yields none. -/
theorem lookupC_map_of_not_mem {κ α : Type} [DecidableEq κ] (f : κ → α)
    {ks : List κ} {k : κ} (h : k ∉ ks) :
    lookupC (ks.map (fun x => (x, f x))) k = none := by
  induction ks with
  | nil => rfl
  | cons x xs ih =>
      simp only [List.map_cons, lookupC]
      rw [if_neg (by rintro rfl; exact h (List.mem_cons_self _ _))]
      exact ih (fun hm => h (List.mem_cons_of_mem _ hm))

/-- lookup over keys mapped to their values: a present key yields its
value. -/
theorem lookupC_map_of_mem {κ α : Type} [DecidableEq κ] (f : κ → α)
    {ks : List κ} {k : κ} (h : k ∈ ks) :
    lookupC (ks.map (fun x => (x, f x))) k = some (f k) := by
  induction ks with
  | nil => cases h
  | cons x xs ih =>
      by_cases hx : x = k
      · subst hx
        simp [lookupC]
      · simp only [List.map_cons, lookupC, if_neg hx]
        rcases List.mem_cons.mp h with h | h
        · exact absurd h.symm hx
        · exact ih h

/-- removing a key from mapped bindings filters it from the key list. -/
theorem removeKey_map {κ α : Type} [DecidableEq κ] (f : κ → α)
    (ks : List κ) (k : κ) :
    removeKey (ks.map (fun x => (x, f x))) k
      = (ks.filter (fun x => !decide (x = k))).map (fun x => (x, f x)) := by
  induction ks with
  | nil => rfl
  | cons x xs ih =>
      by_cases hx : x = k
      · subst hx
        simp [removeKey, List.filter, ih]
      · simp [removeKey, List.filter, hx, ih]

/-- inserting distinct keys into the empty store leaves the most recent
capacity-many of them, most recent first. -/
theorem insertAll_eq {κ α : Type} [DecidableEq κ] (cap : Nat) (f : κ → α) :
    ∀ ks : List κ, ks.Nodup →
      insertAll cap f ks = (ks.reverse.map (fun x => (x, f x))).take cap := by
  intro ks
  induction ks using List.reverseRecOn with
  | nil => intro _; simp [insertAll]
  | append_singleton xs x ih =>
      intro hnd
      have hx : x ∉ xs := by
        have hd := List.disjoint_of_nodup_append hnd
        intro hm
        exact hd hm (List.mem_singleton_self x)
      have hxs : xs.Nodup := List.Nodup.of_append_left hnd
      have step : insertAll cap f (xs ++ [x])
          = lruSet cap (insertAll cap f xs) x (f x) := by
        simp [insertAll, List.foldl_append]
      rw [step, ih hxs]
      have hfresh : ∀ p ∈ (xs.reverse.map (fun y => (y, f y))).take cap,
          p.1 ≠ x := by
        intro p hp
        have hp2 := List.take_subset _ _ hp
        rcases List.mem_map.mp hp2 with ⟨y, hy, rfl⟩
        intro hyx
        exact hx (hyx ▸ (List.mem_reverse.mp hy))
      unfold lruSet
      rw [removeKey_of_not_mem hfresh, take_cons_take]
      simp [List.reverse_append]

/-- C7: fingerprint isolation across derivation keys: for every node, two
fingerprints computed with identical content, origin and timestamp but
different derivation keys are distinct; in particular the ast and html
fingerprints of any node differ, so the parse, render, headings and
timeToRead cache entries of one node never collide. -/
theorem c7_fingerprint_isolation :
    (∀ (node : Node) (k1 k2 : String), k1 ≠ k2 →
      cacheKey node k1 ≠ cacheKey node k2)
    ∧ ∀ node : Node, cacheKey node "ast" ≠ cacheKey node "html" := by
  constructor
  · intro node k1 k2 hne h
    exact hne (congrArg HashInput.key h)
  · intro node h
    have h2 : "ast" = "html" := congrArg HashInput.key h
    exact absurd h2 (by decide)

/-- witness for C7 at a concrete node and concrete derivation keys. -/
theorem c7_fingerprint_isolation_witness :
    cacheKey node0 "ast" ≠ cacheKey node0 "headings"
    ∧ cacheKey node0 "ast" ≠ cacheKey node0 "html" :=
  ⟨c7_fingerprint_isolation.1 node0 "ast" "headings" (by decide),
   c7_fingerprint_isolation.2 node0⟩

/-- C9: the cache key depends only on node.content, node.internal.origin,
node.internal.timestamp and the derivation key: nodes agreeing on those
three fields share fingerprints even when their source texts differ, and
two parse requests through such nodes, even with different transformer
options, share one cache entry: the second caller receives the artifact
the first caller parsed from its own source and options. -/
theorem c9_cache_key_ignores_source_and_options :
    (∀ (n1 n2 : Node) (k : String),
        n1.content = n2.content →
        n1.internal.origin = n2.internal.origin →
        n1.internal.timestamp = n2.internal.timestamp →
        cacheKey n1 k = cacheKey n2 k)
    ∧ ∀ {AST O : Type} (E : Externals AST O) (opts1 opts2 : O)
        (n1 n2 : Node) (a : AST),
        n1.content = n2.content →
        n1.internal.origin = n2.internal.origin →
        n1.internal.timestamp = n2.internal.timestamp →
        E.load n1.source opts1 (E.dirname n1.fileInfo.path) = .ok a →
        (nodeToAST E opts2 n2 (nodeToAST E opts1 n1 initialWorld).2).1 = .ok a
        ∧ (nodeToAST E opts2 n2
            (nodeToAST E opts1 n1 initialWorld).2).2.loadCalls = 1 := by
  constructor
  · intro n1 n2 k h1 h2 h3
    simp [cacheKey, hashSum, h1, h2, h3]
  · intro AST O E opts1 opts2 n1 n2 a h1 h2 h3 hl
    have hkey : cacheKey n2 "ast" = cacheKey n1 "ast" := by
      simp [cacheKey, hashSum, h1, h2, h3]
    simp [nodeToAST, cacheGet, lookupC, lruTouch, removeKey, jsMiss, truthy,
      initialWorld, lruSet, cacheMax, hl, hkey, List.take_of_length_le]

/-- witness for C9: node0 and node1 agree on content, origin and
timestamp while their source texts differ; the second parse returns the
first parse's AST after a single parser invocation. -/
theorem c9_cache_key_ignores_source_and_options_witness :
    cacheKey node0 "ast" = cacheKey node1 "ast"
    ∧ (nodeToAST extOk () node1 (nodeToAST extOk () node0 initialWorld).2).1
        = .ok 0
    ∧ (nodeToAST extOk () node1
        (nodeToAST extOk () node0 initialWorld).2).2.loadCalls = 1 :=
  ⟨c9_cache_key_ignores_source_and_options.1 node0 node1 "ast" rfl rfl rfl,
   (c9_cache_key_ignores_source_and_options.2 extOk () () node0 node1 0
      rfl rfl rfl rfl).1,
   (c9_cache_key_ignores_source_and_options.2 extOk () () node0 node1 0
      rfl rfl rfl rfl).2⟩

/-- C8: LRU eviction of the bounded memo store: a set against the
repository's capacity leaves at most 1000 entries; inserting capacity
plus one distinct fingerprints into an empty store evicts exactly the
least recently used (the first inserted) entry, every other entry
surviving; and an entry touched through get before the last insert is
protected from that eviction, the next least recently used entry being
evicted instead (get and set both count as a use). -/
theorem c8_lru_eviction :
    (∀ {κ α : Type} [DecidableEq κ] (c : List (κ × α)) (k : κ) (v : α),
        (lruSet cacheMax c k v).length ≤ 1000)
    ∧ (∀ {κ α : Type} [DecidableEq κ] (cap : Nat) (f : κ → α) (k0 : κ)
        (rest : List κ), (k0 :: rest).Nodup →
        (k0 :: rest).length = cap + 1 →
        lookupC (insertAll cap f (k0 :: rest)) k0 = none
        ∧ ∀ k ∈ rest, lookupC (insertAll cap f (k0 :: rest)) k = some (f k))
    ∧ (∀ {κ α : Type} [DecidableEq κ] (cap : Nat) (f : κ → α) (k0 k1 : κ)
        (rest : List κ) (knew : κ), (k0 :: k1 :: rest).Nodup →
        knew ∉ k0 :: k1 :: rest →
        (k0 :: k1 :: rest).length = cap →
        lookupC (lruSet cap
            (lruTouch (insertAll cap f (k0 :: k1 :: rest)) k0)
            knew (f knew)) k0 = some (f k0)
        ∧ lookupC (lruSet cap
            (lruTouch (insertAll cap f (k0 :: k1 :: rest)) k0)
            knew (f knew)) k1 = none
        ∧ lookupC (lruSet cap
            (lruTouch (insertAll cap f (k0 :: k1 :: rest)) k0)
            knew (f knew)) knew = some (f knew)) := by
  refine ⟨?_, ?_, ?_⟩
  · intro κ α _ c k v
    have h := List.length_take cacheMax ((k, v) :: removeKey c k)
    unfold lruSet
    rw [h]
    exact le_trans (Nat.min_le_left _ _) (by norm_num [cacheMax])
  · intro κ α _ cap f k0 rest hnd hlen
    have hk0 : k0 ∉ rest := (List.nodup_cons.mp hnd).1
    have hrest : rest.length = cap := by simpa using hlen
    have hfinal : insertAll cap f (k0 :: rest)
        = rest.reverse.map (fun x => (x, f x)) := by
      rw [insertAll_eq cap f _ hnd]
      rw [List.reverse_cons, List.map_append]
      exact List.take_left' (by simpa using hrest)
    constructor
    · rw [hfinal]
      exact lookupC_map_of_not_mem f (fun hm => hk0 (List.mem_reverse.mp hm))
    · intro k hk
      rw [hfinal]
      exact lookupC_map_of_mem f (List.mem_reverse.mpr hk)
  · intro κ α _ cap f k0 k1 rest knew hnd hknew hlen
    have hk0 : k0 ∉ k1 :: rest := (List.nodup_cons.mp hnd).1
    have hnd1 : (k1 :: rest).Nodup := (List.nodup_cons.mp hnd).2
    have hk1 : k1 ∉ rest := (List.nodup_cons.mp hnd1).1
    have hs1 : insertAll cap f (k0 :: k1 :: rest)
        = (k0 :: k1 :: rest).reverse.map (fun x => (x, f x)) := by
      rw [insertAll_eq cap f _ hnd]
      refine List.take_of_length_le ?_
      simp only [List.length_map, List.length_reverse, List.length_cons]
      simp only [List.length_cons] at hlen
      omega
    have hs2 : lruTouch (insertAll cap f (k0 :: k1 :: rest)) k0
        = (k0 :: (k1 :: rest).reverse).map (fun x => (x, f x)) := by
      unfold lruTouch
      rw [hs1, lookupC_map_of_mem f (List.mem_reverse.mpr (by simp)),
        removeKey_map, List.reverse_cons, List.filter_append]
      rw [List.filter_eq_self.mpr (fun x hx => by
        simp only [Bool.not_eq_true', decide_eq_false_iff_not]
        intro hxk
        exact hk0 (hxk ▸ List.mem_reverse.mp hx))]
      simp
    have hs3 : lruSet cap (lruTouch (insertAll cap f (k0 :: k1 :: rest)) k0)
          knew (f knew)
        = (knew :: k0 :: rest.reverse).map (fun x => (x, f x)) := by
      rw [hs2]
      unfold lruSet
      rw [removeKey_of_not_mem (fun p hp => by
        rcases List.mem_map.mp hp with ⟨y, hy, rfl⟩
        intro hyk
        apply hknew
        rw [← hyk]
        rcases List.mem_cons.mp hy with h | h
        · exact h ▸ List.mem_cons_self _ _
        · exact List.mem_cons_of_mem _ (List.mem_reverse.mp h))]
      rw [show ((knew, f knew)
            :: (k0 :: (k1 :: rest).reverse).map (fun x => (x, f x)))
          = ((knew :: k0 :: rest.reverse).map (fun x => (x, f x)))
            ++ [k1].map (fun x => (x, f x)) from by
        simp [List.reverse_cons]]
      refine List.take_left' ?_
      simp only [List.length_map, List.length_cons, List.length_reverse]
      simp only [List.length_cons] at hlen
      omega
    rw [hs3]
    refine ⟨lookupC_map_of_mem f (by simp), ?_, lookupC_map_of_mem f (by simp)⟩
    refine lookupC_map_of_not_mem f ?_
    simp only [List.mem_cons, List.mem_reverse]
    push_neg
    refine ⟨?_, ?_, hk1⟩
    · intro h
      exact hknew (by rw [← h]; simp)
    · intro h
      exact hk0 (by rw [← h]; simp)

/-- witness for C8 at a concrete capacity of three, four distinct numeric
fingerprints, and a get that protects the first-inserted entry. -/
theorem c8_lru_eviction_witness :
    (lruSet cacheMax ([] : List (Nat × Nat)) 5 7).length ≤ 1000
    ∧ lookupC (insertAll 3 (fun k => k + 10) [0, 1, 2, 3]) 0 = none
    ∧ lookupC (insertAll 3 (fun k => k + 10) [0, 1, 2, 3]) 2 = some 12
    ∧ lookupC (lruSet 3 (lruTouch (insertAll 3 (fun k => k + 10) [0, 1, 2]) 0)
        3 13) 0 = some 10
    ∧ lookupC (lruSet 3 (lruTouch (insertAll 3 (fun k => k + 10) [0, 1, 2]) 0)
        3 13) 1 = none
    ∧ lookupC (lruSet 3 (lruTouch (insertAll 3 (fun k => k + 10) [0, 1, 2]) 0)
        3 13) 3 = some 13 :=
  ⟨c8_lru_eviction.1 [] 5 7,
   (c8_lru_eviction.2.1 3 (fun k => k + 10) 0 [1, 2, 3]
      (by decide) (by decide)).1,
   (c8_lru_eviction.2.1 3 (fun k => k + 10) 0 [1, 2, 3]
      (by decide) (by decide)).2 2 (by decide),
   (c8_lru_eviction.2.2 3 (fun k => k + 10) 0 1 [2] 3
      (by decide) (by decide) (by decide)).1,
   (c8_lru_eviction.2.2 3 (fun k => k + 10) 0 1 [2] 3
      (by decide) (by decide) (by decide)).2.1,
   (c8_lru_eviction.2.2 3 (fun k => k + 10) 0 1 [2] 3
      (by decide) (by decide) (by decide)).2.2⟩

/-- two cache keys agree exactly when the hashed fields all agree. -/
@[simp]
theorem cacheKey_eq_cacheKey_iff (n m : Node) (k1 k2 : String) :
    cacheKey n k1 = cacheKey m k2
      ↔ n.content = m.content ∧ n.internal.origin = m.internal.origin
        ∧ n.internal.timestamp = m.internal.timestamp ∧ k1 = k2 := by
  simp [cacheKey, hashSum, HashInput.mk.injEq]

/-- C4: cache reuse: after one completed render of a node from the clean
module state, rendering the unchanged node again returns the same output
while the external parser and converter have still each run only once. -/
theorem c4_cache_reuse {AST O : Type} (E : Externals AST O) (opts : O)
    (node : Node) (a : AST) (s : String)
    (hl : E.load node.source opts (E.dirname node.fileInfo.path) = .ok a)
    (hc : E.convert a opts (E.dirname node.fileInfo.path) = .ok s) :
    (nodeToHTMLRun E opts node initialWorld).1 = .ok s
    ∧ (nodeToHTMLRun E opts node (nodeToHTMLRun E opts node initialWorld).2).1
        = .ok s
    ∧ (nodeToHTMLRun E opts node
        (nodeToHTMLRun E opts node initialWorld).2).2.loadCalls = 1
    ∧ (nodeToHTMLRun E opts node
        (nodeToHTMLRun E opts node initialWorld).2).2.convertCalls = 1 := by
  simp [nodeToHTMLRun, nodeToHTML, nodeToAST, runConvertCont, readPromise,
    cacheGet, lookupC, lruTouch, removeKey, lruSet, jsMiss, truthy,
    initialWorld, cacheMax, hl, hc, List.take_of_length_le]

/-- witness for C4 at the concrete node and external collaborators. -/
theorem c4_cache_reuse_witness :
    (nodeToHTMLRun extOk () node0 initialWorld).1 = .ok "<p>hello world</p>"
    ∧ (nodeToHTMLRun extOk () node0
        (nodeToHTMLRun extOk () node0 initialWorld).2).1
        = .ok "<p>hello world</p>"
    ∧ (nodeToHTMLRun extOk () node0
        (nodeToHTMLRun extOk () node0 initialWorld).2).2.loadCalls = 1
    ∧ (nodeToHTMLRun extOk () node0
        (nodeToHTMLRun extOk () node0 initialWorld).2).2.convertCalls = 1 :=
  c4_cache_reuse extOk () node0 0 "<p>hello world</p>" rfl rfl

/-- C1 as stated is false: two headings requests issued concurrently on
the same node from the clean module state run the heading enumeration
twice, not exactly once, because the resolver only reaches cache.set after
its await; the underlying parse still happens once. -/
theorem c1_concurrent_views_recompute :
    (twoConcurrentHeadings extOk () node0 none true none true
        initialWorld).2.headingsComputes ≠ 1
    ∧ (twoConcurrentHeadings extOk () node0 none true none true
        initialWorld).2.headingsComputes = 2
    ∧ (twoConcurrentHeadings extOk () node0 none true none true
        initialWorld).2.loadCalls = 1 := by
  decide

/-- C1 amended: the parse and render stages are single flight: the AST is
stored synchronously and the render promise is stored before the first
suspension point, so two concurrent render requests share one promise and
the external converter runs exactly once (and the parser once); the
headings and timeToRead resolvers, however, only store their result after
awaiting, so two concurrent view requests each compute the view, while
still sharing the single underlying parse and render. -/
theorem c1_single_flight_amended {AST O : Type} (E : Externals AST O)
    (opts : O) (node : Node) (a : AST)
    (hl : E.load node.source opts (E.dirname node.fileInfo.path) = .ok a) :
    ((twoConcurrentHTML E opts node initialWorld).1.1
        = (twoConcurrentHTML E opts node initialWorld).1.2
      ∧ (twoConcurrentHTML E opts node initialWorld).2.convertCalls = 1
      ∧ (twoConcurrentHTML E opts node initialWorld).2.loadCalls = 1)
    ∧ (∀ (d1 : Option Nat) (s1 : Bool) (d2 : Option Nat) (s2 : Bool),
        (twoConcurrentHeadings E opts node d1 s1 d2 s2
            initialWorld).2.headingsComputes = 2
        ∧ (twoConcurrentHeadings E opts node d1 s1 d2 s2
            initialWorld).2.loadCalls = 1)
    ∧ ∀ (str : String) (sp1 sp2 : Nat),
        E.convert a opts (E.dirname node.fileInfo.path) = .ok str →
        (twoConcurrentTimeToRead E opts node sp1 sp2
            initialWorld).2.timeToReadComputes = 2
        ∧ (twoConcurrentTimeToRead E opts node sp1 sp2
            initialWorld).2.convertCalls = 1
        ∧ (twoConcurrentTimeToRead E opts node sp1 sp2
            initialWorld).2.loadCalls = 1 := by
  refine ⟨?_, ?_, ?_⟩
  · cases hconv : E.convert a opts (E.dirname node.fileInfo.path) with
    | error e =>
        simp [twoConcurrentHTML, nodeToHTML, nodeToAST, runConvertCont,
          cacheGet, lookupC, lruTouch, removeKey, lruSet, jsMiss, truthy,
          initialWorld, cacheMax, hl, hconv, List.take_of_length_le]
    | ok s =>
        simp [twoConcurrentHTML, nodeToHTML, nodeToAST, runConvertCont,
          cacheGet, lookupC, lruTouch, removeKey, lruSet, jsMiss, truthy,
          initialWorld, cacheMax, hl, hconv, List.take_of_length_le]
  · intro d1 s1 d2 s2
    simp [twoConcurrentHeadings, headingsSeg1, headingsSeg2, headingsResume,
      nodeToAST, cacheGet, lookupC, lruTouch, removeKey, lruSet, jsMiss,
      truthy, initialWorld, cacheMax, hl, List.take_of_length_le]
  · intro str sp1 sp2 hc
    simp [twoConcurrentTimeToRead, timeToReadSeg1, timeToReadSeg2,
      timeToReadResume, nodeToHTML, nodeToAST, runConvertCont, readPromise,
      cacheGet, lookupC, lruTouch, removeKey, lruSet, jsMiss, truthy,
      initialWorld, cacheMax, hl, hc, List.take_of_length_le]

/-- witness for the amended C1 at the concrete node and collaborators. -/
theorem c1_single_flight_amended_witness :
    ((twoConcurrentHTML extOk () node0 initialWorld).1.1
        = (twoConcurrentHTML extOk () node0 initialWorld).1.2
      ∧ (twoConcurrentHTML extOk () node0 initialWorld).2.convertCalls = 1
      ∧ (twoConcurrentHTML extOk () node0 initialWorld).2.loadCalls = 1)
    ∧ ((twoConcurrentTimeToRead extOk () node0 230 100
          initialWorld).2.timeToReadComputes = 2
      ∧ (twoConcurrentTimeToRead extOk () node0 230 100
          initialWorld).2.convertCalls = 1
      ∧ (twoConcurrentTimeToRead extOk () node0 230 100
          initialWorld).2.loadCalls = 1) :=
  ⟨(c1_single_flight_amended extOk () node0 0 rfl).1,
   (c1_single_flight_amended extOk () node0 0 rfl).2.2
      "<p>hello world</p>" 230 100 rfl⟩

/-- C2: evaluation at the failing inputs: a rejected convert leaves the
rejected promise cached under the html fingerprint, and a second render
request reuses that rejection without re-invoking the converter, so no
retry is possible; only the direct parse path caches nothing on failure,
while even a parse failure reached through the render path leaves a
cached rejected promise. -/
theorem c2_failed_render_stays_cached :
    (nodeToHTMLRun extConvertFail () node0 initialWorld).1
        = .error "convert failed"
    ∧ lookupC (nodeToHTMLRun extConvertFail () node0 initialWorld).2.cache
        (cacheKey node0 "html") = some (.promiseV 0)
    ∧ lookupC (nodeToHTMLRun extConvertFail () node0 initialWorld).2.promises
        0 = some (.rejectedS "convert failed")
    ∧ (nodeToHTMLRun extConvertFail () node0
        (nodeToHTMLRun extConvertFail () node0 initialWorld).2).1
        = .error "convert failed"
    ∧ (nodeToHTMLRun extConvertFail () node0
        (nodeToHTMLRun extConvertFail () node0 initialWorld).2).2.convertCalls
        = 1
    ∧ (nodeToAST extLoadFail () node0 initialWorld).1 = .error "parse failed"
    ∧ (nodeToAST extLoadFail () node0 initialWorld).2.cache = []
    ∧ lookupC (nodeToHTMLRun extLoadFail () node0 initialWorld).2.cache
        (cacheKey node0 "html") = some (.promiseV 0)
    ∧ lookupC (nodeToHTMLRun extLoadFail () node0 initialWorld).2.promises
        0 = some (.rejectedS "parse failed") :=
  ⟨rfl, rfl, rfl, rfl, rfl, rfl, rfl, rfl, rfl⟩

/-- C3: call-time view parameters are not part of the cache key: after a
first timeToRead call with one speed, a second call with a different speed
returns the first call's cached value without recomputing, and after a
first headings call with one depth and stripTags pair, a second call with
a different pair returns the first call's cached value without
recomputing. -/
theorem c3_view_params_not_in_key {AST O : Type} (E : Externals AST O)
    (opts : O) (node : Node) (a : AST) (s : String)
    (hl : E.load node.source opts (E.dirname node.fileInfo.path) = .ok a)
    (hc : E.convert a opts (E.dirname node.fileInfo.path) = .ok s)
    (sp1 sp2 : Nat) (hsp : 0 < sp1) (hne : sp1 ≠ sp2)
    (d1 d2 : Option Nat) (st1 st2 : Bool) (hd : (d1, st1) ≠ (d2, st2)) :
    ((timeToReadRun E opts node sp2
        (timeToReadRun E opts node sp1 initialWorld).2).1
      = (timeToReadRun E opts node sp1 initialWorld).1
    ∧ (timeToReadRun E opts node sp2
        (timeToReadRun E opts node sp1 initialWorld).2).2.timeToReadComputes
      = 1
    ∧ (timeToReadRun E opts node sp2
        (timeToReadRun E opts node sp1 initialWorld).2).2.convertCalls = 1)
    ∧ ((headingsRun E opts node d2 st2
        (headingsRun E opts node d1 st1 initialWorld).2).1
      = (headingsRun E opts node d1 st1 initialWorld).1
    ∧ (headingsRun E opts node d2 st2
        (headingsRun E opts node d1 st1 initialWorld).2).2.headingsComputes
      = 1
    ∧ (headingsRun E opts node d2 st2
        (headingsRun E opts node d1 st1 initialWorld).2).2.loadCalls = 1) := by
  constructor
  · by_cases hr : roundDiv (E.wordCount (E.sanitize s)) sp1 = 0 <;>
      simp [timeToReadRun, timeToReadSeg1, timeToReadSeg2, timeToReadResume,
        nodeToHTML, nodeToAST, runConvertCont, readPromise, cacheGet, lookupC,
        lruTouch, removeKey, lruSet, jsMiss, truthy, initialWorld, cacheMax,
        hl, hc, hr, List.take_of_length_le]
  · simp [headingsRun, headingsSeg1, headingsSeg2, headingsResume, nodeToAST,
      cacheGet, lookupC, lruTouch, removeKey, lruSet, jsMiss, truthy,
      initialWorld, cacheMax, hl, List.take_of_length_le]

/-- witness for C3 at the concrete node, speeds 230 then 100, and a depth
and stripTags pair that changes between the calls. -/
theorem c3_view_params_not_in_key_witness :
    ((timeToReadRun extOk () node0 100
        (timeToReadRun extOk () node0 230 initialWorld).2).1
      = (timeToReadRun extOk () node0 230 initialWorld).1
    ∧ (timeToReadRun extOk () node0 100
        (timeToReadRun extOk () node0 230
          initialWorld).2).2.timeToReadComputes = 1
    ∧ (timeToReadRun extOk () node0 100
        (timeToReadRun extOk () node0 230 initialWorld).2).2.convertCalls = 1)
    ∧ ((headingsRun extOk () node0 (some 2) false
        (headingsRun extOk () node0 none true initialWorld).2).1
      = (headingsRun extOk () node0 none true initialWorld).1
    ∧ (headingsRun extOk () node0 (some 2) false
        (headingsRun extOk () node0 none true
          initialWorld).2).2.headingsComputes = 1
    ∧ (headingsRun extOk () node0 (some 2) false
        (headingsRun extOk () node0 none true initialWorld).2).2.loadCalls
      = 1) :=
  c3_view_params_not_in_key extOk () node0 0 "<p>hello world</p>" rfl rfl
    230 100 (by decide) (by decide) none (some 2) true false (by decide)

/-- the modelled Math.round agrees with mathematical rounding (halves up)
of the exact quotient, for every positive speed. -/
theorem roundDiv_eq_round (c sp : Nat) (h : 0 < sp) :
    (roundDiv c sp : Int) = round ((c : ℚ) / (sp : ℚ)) := by
  have hs : (sp : ℚ) ≠ 0 := Nat.cast_ne_zero.mpr (Nat.pos_iff_ne_zero.mp h)
  rw [round_eq]
  have h2 : (c : ℚ) / (sp : ℚ) + 1 / 2
      = ((2 * c + sp : ℕ) : ℚ) / ((2 * sp : ℕ) : ℚ) := by
    push_cast
    field_simp
    ring
  rw [h2]
  have hnn : (0 : ℚ) ≤ ((2 * c + sp : ℕ) : ℚ) / ((2 * sp : ℕ) : ℚ) := by
    positivity
  rw [← Int.natCast_floor_eq_floor hnn, Nat.floor_div_eq_div]
  simp [roundDiv]

/-- C5: the reading-time formula: on a miss from the clean module state,
timeToRead renders the node, strips the markup, counts the words, rounds
count over speed to the nearest integer with halves up, and floors the
result at 1: whenever the rounded quotient is 0 the result is exactly 1,
the returned value is always at least 1, the rounding agrees with the
mathematical rounding of count over speed, and speed defaults to 230. -/
theorem c5_reading_time_formula {AST O : Type} (E : Externals AST O)
    (opts : O) (node : Node) (a : AST) (s : String) (speed : Nat)
    (hsp : 0 < speed)
    (hl : E.load node.source opts (E.dirname node.fileInfo.path) = .ok a)
    (hc : E.convert a opts (E.dirname node.fileInfo.path) = .ok s) :
    (timeToReadRun E opts node speed initialWorld).1
      = .ok (.intV (if roundDiv (E.wordCount (E.sanitize s)) speed = 0 then 1
          else (roundDiv (E.wordCount (E.sanitize s)) speed : Int)))
    ∧ (roundDiv (E.wordCount (E.sanitize s)) speed = 0 →
        (timeToReadRun E opts node speed initialWorld).1 = .ok (.intV 1))
    ∧ (∀ n : Int, (timeToReadRun E opts node speed initialWorld).1
          = .ok (.intV n) → 1 ≤ n)
    ∧ ((roundDiv (E.wordCount (E.sanitize s)) speed : Int)
        = round ((E.wordCount (E.sanitize s) : ℚ) / (speed : ℚ)))
    ∧ timeToReadDefaultSpeed = 230 := by
  have hmain : (timeToReadRun E opts node speed initialWorld).1
      = .ok (.intV (if roundDiv (E.wordCount (E.sanitize s)) speed = 0 then 1
          else (roundDiv (E.wordCount (E.sanitize s)) speed : Int))) := by
    simp [timeToReadRun, timeToReadSeg1, timeToReadSeg2, timeToReadResume,
      nodeToHTML, nodeToAST, runConvertCont, readPromise, cacheGet, lookupC,
      lruTouch, removeKey, lruSet, jsMiss, truthy, initialWorld, cacheMax,
      hl, hc, List.take_of_length_le]
  refine ⟨hmain, ?_, ?_, roundDiv_eq_round _ _ hsp, rfl⟩
  · intro h0
    rw [hmain, h0]
    simp
  · intro n hn
    rw [hmain] at hn
    have hv : n = (if roundDiv (E.wordCount (E.sanitize s)) speed = 0 then 1
        else (roundDiv (E.wordCount (E.sanitize s)) speed : Int)) := by
      simpa using hn.symm
    by_cases hr : roundDiv (E.wordCount (E.sanitize s)) speed = 0
    · rw [hv, if_pos hr]
    · rw [hv, if_neg hr]
      omega

/-- witness for C5: the concrete document has two words, so at the default
speed the rounded quotient is 0 and the reported reading time is 1. -/
theorem c5_reading_time_formula_witness :
    (timeToReadRun extOk () node0 timeToReadDefaultSpeed initialWorld).1
      = .ok (.intV 1)
    ∧ timeToReadDefaultSpeed = 230 :=
  ⟨((c5_reading_time_formula extOk () node0 0 "<p>hello world</p>" 230
      (by decide) rfl rfl).2.1 (by decide)),
   rfl⟩

/-- C6 as stated is false: supplying depth 2 together with stripTags true
still returns the level-1 entry, with its markup left in the value,
because the resolver never reads either argument. -/
theorem c6_depth_and_strip_ignored :
    (headingsRun extOk () node0 (some 2) true initialWorld).1
      = .ok (.headingsV [⟨1, "<em>A</em>", "_a"⟩, ⟨2, "B", "_b"⟩])
    ∧ ([⟨1, "<em>A</em>", "_a"⟩, ⟨2, "B", "_b"⟩] : List Heading).any
        (fun h => decide (h.depth ≠ 2)) = true
    ∧ ([⟨1, "<em>A</em>", "_a"⟩, ⟨2, "B", "_b"⟩] : List Heading).any
        (fun h => decide (h.value = "<em>A</em>")) = true := by
  refine ⟨rfl, by decide, by decide⟩

/-- C6 amended: headings returns all cross-reference entries of the
structured document, in enumeration order, as depth, value, anchor
records; the call-time depth and stripTags arguments are accepted but
ignored: no depth filtering and no tag stripping takes place, a call with
any argument pair behaving exactly like one with the defaults. -/
theorem c6_headings_outline_amended {AST O : Type} (E : Externals AST O)
    (opts : O) (node : Node) (a : AST) (d : Option Nat) (st : Bool)
    (hl : E.load node.source opts (E.dirname node.fileInfo.path) = .ok a) :
    (headingsRun E opts node d st initialWorld).1
      = .ok (.headingsV ((E.getRefs a).map
          (fun h => Heading.mk h.level h.title h.id)))
    ∧ headingsRun E opts node d st initialWorld
      = headingsRun E opts node none true initialWorld := by
  refine ⟨?_, rfl⟩
  simp [headingsRun, headingsSeg1, headingsSeg2, headingsResume, nodeToAST,
    cacheGet, lookupC, lruTouch, removeKey, lruSet, jsMiss, truthy,
    initialWorld, cacheMax, hl, List.take_of_length_le]

/-- witness for the amended C6 at the concrete node and collaborators. -/
theorem c6_headings_outline_amended_witness :
    (headingsRun extOk () node0 (some 2) false initialWorld).1
      = .ok (.headingsV (refs0.map (fun h => Heading.mk h.level h.title h.id)))
    ∧ headingsRun extOk () node0 (some 2) false initialWorld
      = headingsRun extOk () node0 none true initialWorld :=
  c6_headings_outline_amended extOk () node0 0 (some 2) false rfl

/-- all values of a store stay truthy when a key is touched. -/
theorem truthyAll_lruTouch {κ AST : Type} [DecidableEq κ]
    {c : List (κ × CVal AST)} {k : κ} (h : ∀ p ∈ c, truthy p.2 = true) :
    ∀ p ∈ lruTouch c k, truthy p.2 = true :=
  fun p hp => h p (mem_of_mem_lruTouch hp)

/-- a set of a truthy value keeps all values of a store truthy. -/
theorem truthyAll_lruSet {κ AST : Type} [DecidableEq κ] {max : Nat}
    {c : List (κ × CVal AST)} {k : κ} {v : CVal AST}
    (h : ∀ p ∈ c, truthy p.2 = true) (hv : truthy v = true) :
    ∀ p ∈ lruSet max c k v, truthy p.2 = true := by
  intro p hp
  rcases mem_of_mem_lruSet hp with rfl | hp2
  · exact hv
  · exact h p hp2

/-- the parse stage only stores AST values, which are truthy. -/
theorem cacheTruthy_nodeToAST {AST O : Type} (E : Externals AST O)
    (opts : O) (node : Node) (w : World AST) (hw : cacheTruthy w) :
    cacheTruthy (nodeToAST E opts node w).2 := by
  unfold cacheTruthy at hw ⊢
  simp only [nodeToAST, cacheGet]
  split
  · split
    · exact truthyAll_lruTouch hw
    · exact truthyAll_lruSet (truthyAll_lruTouch hw) rfl
  · split
    · exact truthyAll_lruTouch hw
    · exact truthyAll_lruTouch hw

/-- the render stage only stores promise values, which are truthy. -/
theorem cacheTruthy_nodeToHTML {AST O : Type} (E : Externals AST O)
    (opts : O) (node : Node) (w : World AST) (hw : cacheTruthy w) :
    cacheTruthy (nodeToHTML E opts node w).2 := by
  unfold cacheTruthy
  simp only [nodeToHTML, cacheGet]
  split
  · exact truthyAll_lruSet
      (cacheTruthy_nodeToAST E opts node _ (truthyAll_lruTouch hw)) rfl
  · split
    · exact truthyAll_lruTouch hw
    · exact truthyAll_lruTouch hw

/-- the convert continuation never writes to the cache. -/
theorem cacheTruthy_runConvertCont {AST O : Type} (E : Externals AST O)
    (opts : O) (node : Node) (pid : Nat) (w : World AST)
    (hw : cacheTruthy w) : cacheTruthy (runConvertCont E opts node pid w) := by
  unfold cacheTruthy
  simp only [runConvertCont]
  split
  · exact hw
  · exact hw

/-- the synchronous prefix of the headings resolver keeps the cache
truthy. -/
theorem cacheTruthy_headingsSeg1 {AST O : Type} (E : Externals AST O)
    (opts : O) (node : Node) (d : Option Nat) (st : Bool) (w : World AST)
    (hw : cacheTruthy w) :
    cacheTruthy (headingsSeg1 E opts node d st w).2 := by
  unfold cacheTruthy
  simp only [headingsSeg1, cacheGet]
  split
  · exact cacheTruthy_nodeToAST E opts node _ (truthyAll_lruTouch hw)
  · split
    · exact truthyAll_lruTouch hw
    · exact truthyAll_lruTouch hw

/-- the headings continuation only stores heading lists, which are truthy
even when empty. -/
theorem cacheTruthy_headingsSeg2 {AST O : Type} (E : Externals AST O)
    (node : Node) (r : Except String AST) (w : World AST)
    (hw : cacheTruthy w) : cacheTruthy (headingsSeg2 E node r w).2 := by
  unfold cacheTruthy
  cases r with
  | error e => exact hw
  | ok a => exact truthyAll_lruSet hw rfl

/-- resuming the headings resolver keeps the cache truthy. -/
theorem cacheTruthy_headingsResume {AST O : Type} (E : Externals AST O)
    (node : Node) (c : HeadingsCont AST) (w : World AST)
    (hw : cacheTruthy w) : cacheTruthy (headingsResume E node c w).2 := by
  cases c with
  | hDone v => exact hw
  | hAfterAST r => exact cacheTruthy_headingsSeg2 E node r w hw

/-- the headings resolver keeps the cache truthy. -/
theorem cacheTruthy_headingsRun {AST O : Type} (E : Externals AST O)
    (opts : O) (node : Node) (d : Option Nat) (st : Bool) (w : World AST)
    (hw : cacheTruthy w) : cacheTruthy (headingsRun E opts node d st w).2 :=
  cacheTruthy_headingsResume E node _ _
    (cacheTruthy_headingsSeg1 E opts node d st w hw)

/-- the synchronous prefix of the timeToRead resolver keeps the cache
truthy. -/
theorem cacheTruthy_timeToReadSeg1 {AST O : Type} (E : Externals AST O)
    (opts : O) (node : Node) (sp : Nat) (w : World AST)
    (hw : cacheTruthy w) :
    cacheTruthy (timeToReadSeg1 E opts node sp w).2 := by
  unfold cacheTruthy
  simp only [timeToReadSeg1, cacheGet]
  split
  · exact cacheTruthy_nodeToHTML E opts node _ (truthyAll_lruTouch hw)
  · split
    · exact truthyAll_lruTouch hw
    · exact truthyAll_lruTouch hw

/-- the timeToRead continuation only stores integers of at least 1, which
are truthy. -/
theorem cacheTruthy_timeToReadSeg2 {AST O : Type} (E : Externals AST O)
    (node : Node) (sp pid : Nat) (w : World AST) (hw : cacheTruthy w) :
    cacheTruthy (timeToReadSeg2 E node sp pid w).2 := by
  unfold cacheTruthy
  simp only [timeToReadSeg2]
  split
  · exact hw
  · refine truthyAll_lruSet hw ?_
    split
    · rfl
    · rename_i hr
      simp [truthy, Int.natCast_eq_zero, hr]

/-- resuming the timeToRead resolver keeps the cache truthy. -/
theorem cacheTruthy_timeToReadResume {AST O : Type} (E : Externals AST O)
    (opts : O) (node : Node) (sp : Nat) (c : TtrCont AST) (w : World AST)
    (hw : cacheTruthy w) :
    cacheTruthy (timeToReadResume E opts node sp c w).2 := by
  cases c with
  | tDone v => exact hw
  | tAwait pid =>
      exact cacheTruthy_timeToReadSeg2 E node sp pid _
        (cacheTruthy_runConvertCont E opts node pid w hw)

/-- the timeToRead resolver keeps the cache truthy. -/
theorem cacheTruthy_timeToReadRun {AST O : Type} (E : Externals AST O)
    (opts : O) (node : Node) (sp : Nat) (w : World AST)
    (hw : cacheTruthy w) : cacheTruthy (timeToReadRun E opts node sp w).2 :=
  cacheTruthy_timeToReadResume E opts node sp _ _
    (cacheTruthy_timeToReadSeg1 E opts node sp w hw)

/-- C10: every value the four stages store in the memo cache is truthy
(a promise, an AST, a heading list possibly empty, or an integer of at
least 1), so the falsy miss test never treats a stored value as a miss:
a truthy value is never a miss, the four stage operations preserve
truthiness of the whole cache, a document with zero headings caches its
empty array, and any later call that finds a stored heading list returns
it without recomputing. -/
theorem c10_cached_values_truthy :
    (∀ {AST : Type} (v : CVal AST), truthy v = true → jsMiss (some v) = false)
    ∧ (∀ {AST O : Type} (E : Externals AST O) (opts : O) (node : Node)
        (w : World AST), cacheTruthy w →
        cacheTruthy (nodeToAST E opts node w).2
        ∧ cacheTruthy (nodeToHTML E opts node w).2
        ∧ (∀ (d : Option Nat) (st : Bool),
            cacheTruthy (headingsRun E opts node d st w).2)
        ∧ ∀ sp : Nat, cacheTruthy (timeToReadRun E opts node sp w).2)
    ∧ (∀ {AST O : Type} (E : Externals AST O) (opts : O) (node : Node)
        (a : AST),
        E.load node.source opts (E.dirname node.fileInfo.path) = .ok a →
        E.getRefs a = [] →
        (headingsRun E opts node none true initialWorld).1
          = .ok (.headingsV []))
    ∧ ∀ {AST O : Type} (E : Externals AST O) (opts : O) (node : Node)
        (w : World AST) (d : Option Nat) (st : Bool) (hs : List Heading),
        lookupC w.cache (cacheKey node "headings") = some (.headingsV hs) →
        (headingsRun E opts node d st w).1 = .ok (.headingsV hs)
        ∧ (headingsRun E opts node d st w).2.headingsComputes
            = w.headingsComputes
        ∧ (headingsRun E opts node d st w).2.loadCalls = w.loadCalls := by
  refine ⟨?_, ?_, ?_, ?_⟩
  · intro AST v hv
    simp [jsMiss, hv]
  · intro AST O E opts node w hw
    exact ⟨cacheTruthy_nodeToAST E opts node w hw,
      cacheTruthy_nodeToHTML E opts node w hw,
      fun d st => cacheTruthy_headingsRun E opts node d st w hw,
      fun sp => cacheTruthy_timeToReadRun E opts node sp w hw⟩
  · intro AST O E opts node a hl href
    simp [headingsRun, headingsSeg1, headingsSeg2, headingsResume, nodeToAST,
      cacheGet, lookupC, lruTouch, removeKey, lruSet, jsMiss, truthy,
      initialWorld, cacheMax, hl, href, List.take_of_length_le]
  · intro AST O E opts node w d st hs hlk
    simp [headingsRun, headingsSeg1, headingsResume, cacheGet, jsMiss,
      truthy, hlk]

/-- witness for C10: the concrete document with no refs caches its empty
heading list on the first call, and the second call finds the stored list
and returns it without another enumeration or parse. -/
theorem c10_cached_values_truthy_witness :
    jsMiss (some (.headingsV ([] : List Heading) : CVal Nat)) = false
    ∧ cacheTruthy (nodeToAST extOk () node0 initialWorld).2
    ∧ (headingsRun extNoRefs () node0 none true initialWorld).1
        = .ok (.headingsV [])
    ∧ (headingsRun extNoRefs () node0 (some 3) false
        (headingsRun extNoRefs () node0 none true initialWorld).2).1
        = .ok (.headingsV [])
    ∧ (headingsRun extNoRefs () node0 (some 3) false
        (headingsRun extNoRefs () node0 none true
          initialWorld).2).2.headingsComputes
        = (headingsRun extNoRefs () node0 none true
            initialWorld).2.headingsComputes :=
  ⟨c10_cached_values_truthy.1 (.headingsV []) rfl,
   (c10_cached_values_truthy.2.1 extOk () node0 initialWorld
      (by intro p hp; simp [initialWorld] at hp)).1,
   c10_cached_values_truthy.2.2.1 extNoRefs () node0 0 rfl rfl,
   (c10_cached_values_truthy.2.2.2 extNoRefs () node0
      (headingsRun extNoRefs () node0 none true initialWorld).2
      (some 3) false [] (by rfl)).1,
   (c10_cached_values_truthy.2.2.2 extNoRefs () node0
      (headingsRun extNoRefs () node0 none true initialWorld).2
      (some 3) false [] (by rfl)).2.1⟩

end TransformerAsciidoc
